import Mathlib

/-!
# Verification of the Firestore REST client (remix-cloudflare-starter)

Shallow embedding of `app/services/firebase-restapi.ts`: configuration and
client state, collection-name / document-path validation, URL building,
header preparation, token verification, and the value codec between native
values and Firestore's typed wire format.  HTTP transport is modelled as an
explicit response argument; each operation returns its result together with
the list of network requests it issued (and, for token verification, the
list of structured log records it emitted).

JavaScript strings are modelled as Lean `String` with executable embeddings
of `trim`, `split` and `includes`.  JavaScript truthiness of an optional
string (`undefined` and `''` are falsy) is made explicit in `tokenTruthy`.
-/

namespace FirebaseRestApi

/-- Firebase configuration, both fields required (`FirebaseConfig` in the
source). -/
structure FirebaseConfig where
  apiKey : String
  projectId : String
  deriving DecidableEq, Repr

/-- Client instance state: the stored optional ID token and the resolved
uid (`''` while unresolved, as in the source constructor). -/
structure ClientState where
  config : FirebaseConfig
  idToken : Option String
  uid : String
  deriving DecidableEq, Repr

/-- Errors raised by the client, tagged by kind; validation errors carry the
exact message string of the source. -/
inductive ApiError where
  | configError (msg : String)
  | validation (msg : String)
  | tokenVerificationFailed
  | noUserFound
  | tokenNotValidated
  | operationFailed (action : String)
  | decodeFailure
  deriving DecidableEq, Repr

/-- The constructor: rejects a missing/incomplete configuration, stores the
token, starts with `uid = ''`. -/
def mkClient (config : FirebaseConfig) (idToken : Option String) :
    Except ApiError ClientState :=
  if config.apiKey = "" ∨ config.projectId = "" then
    .error (.configError
      "Firebase configuration is incomplete. Both apiKey and projectId are required.")
  else
    .ok { config := config, idToken := idToken, uid := "" }

/-- JS truthiness of the stored token: `undefined` and `''` are falsy. -/
def tokenTruthy (st : ClientState) : Bool :=
  match st.idToken with
  | none => false
  | some t => t ≠ ""

/-! ### JavaScript string primitives

`String.prototype.trim`, `String.prototype.split` and
`String.prototype.includes` are embedded as executable functions over the
character list of the string. -/

/-- A JavaScript WhiteSpace or LineTerminator code point
(ECMA-262, the set `String.prototype.trim` removes). -/
def jsWhitespace (c : Char) : Bool :=
  (0x9 ≤ c.toNat ∧ c.toNat ≤ 0xd) || c = ' ' || c.toNat = 0xa0 ||
    c.toNat = 0x1680 || (0x2000 ≤ c.toNat ∧ c.toNat ≤ 0x200a) ||
    c.toNat = 0x2028 || c.toNat = 0x2029 || c.toNat = 0x202f ||
    c.toNat = 0x205f || c.toNat = 0x3000 || c.toNat = 0xfeff

/-- Embedding of `s.trim()`: strip leading and trailing JS whitespace. -/
def jsTrim (s : String) : String :=
  ⟨((s.data.dropWhile jsWhitespace).reverse.dropWhile jsWhitespace).reverse⟩

/-- Split a character list at every occurrence of `c` (occurrences are kept
as empty pieces, as JS `split` does). -/
def splitCharList (c : Char) : List Char → List (List Char)
  | [] => [[]]
  | x :: xs =>
    let rest := splitCharList c xs
    if x = c then [] :: rest
    else
      match rest with
      | [] => [[x]]
      | piece :: pieces => (x :: piece) :: pieces

/-- Embedding of `s.split(c)` for a one-character separator. -/
def jsSplit (s : String) (c : Char) : List String :=
  (splitCharList c s.data).map fun l => ⟨l⟩

/-- Embedding of `s.includes(c)` for a single character. -/
def jsContainsChar (s : String) (c : Char) : Bool :=
  s.data.contains c

/-- Embedding of `s.includes(pat)` for a string pattern. -/
def jsContainsSub (s pat : String) : Bool :=
  go s.data
where
  go : List Char → Bool
    | [] => pat.data.isPrefixOf []
    | x :: xs => pat.data.isPrefixOf (x :: xs) || go xs

/-- Does `s` contain `".."` (the source's `trimmed.includes('..')`)? -/
def hasDotDot (s : String) : Bool :=
  jsContainsSub s ".."

/-- The source's control-character test `/[\u0000-\u001f\u007f]/`. -/
def hasCtl (s : String) : Bool :=
  s.data.any fun c => c.toNat ≤ 0x1f ∨ c.toNat = 0x7f

/-- Source `validateCollectionName`: trims, then rejects empty
names, path separators / traversal, URL query or fragment characters, and
control characters; returns the trimmed name. -/
def validateCollectionName (collectionName : String) : Except ApiError String :=
  if collectionName = "" then
    .error (.validation "Collection name must be a non-empty string")
  else if jsTrim collectionName = "" then
    .error (.validation "Collection name cannot be empty")
  else if hasDotDot (jsTrim collectionName) ||
      jsContainsChar (jsTrim collectionName) '/' then
    .error (.validation
      "Collection name cannot contain path separators or traversal sequences")
  else if jsContainsChar (jsTrim collectionName) '?' ||
      jsContainsChar (jsTrim collectionName) '#' ||
      jsContainsChar (jsTrim collectionName) '&' then
    .error (.validation
      "Collection name cannot contain URL query or fragment characters")
  else if hasCtl (jsTrim collectionName) then
    .error (.validation "Collection name cannot contain control characters")
  else
    .ok (jsTrim collectionName)

/-- Source `validateDocumentPath`: trims, rejects traversal,
query/fragment and control characters, then requires the path to split on
`/` into an even number of at least two segments none of which is blank;
returns the trimmed path. -/
def validateDocumentPath (documentPath : String) : Except ApiError String :=
  if documentPath = "" then
    .error (.validation "Document path must be a non-empty string")
  else if jsTrim documentPath = "" then
    .error (.validation "Document path cannot be empty")
  else if hasDotDot (jsTrim documentPath) then
    .error (.validation "Document path cannot contain path traversal sequences")
  else if jsContainsChar (jsTrim documentPath) '?' ||
      jsContainsChar (jsTrim documentPath) '#' ||
      jsContainsChar (jsTrim documentPath) '&' then
    .error (.validation
      "Document path cannot contain URL query or fragment characters")
  else if hasCtl (jsTrim documentPath) then
    .error (.validation "Document path cannot contain control characters")
  else if (jsSplit (jsTrim documentPath) '/').length < 2 ∨
      (jsSplit (jsTrim documentPath) '/').length % 2 ≠ 0 then
    .error (.validation
      "Document path must follow the pattern: collection/document[/subcollection/subdocument]...")
  else if (jsSplit (jsTrim documentPath) '/').any fun part =>
      jsTrim part = "" then
    .error (.validation "Document path cannot contain empty segments")
  else
    .ok (jsTrim documentPath)

/-- A URL split into its path part and its query parameters, the shallow
embedding of the WHATWG `URL` values the source builds (a validated path
contains no `?`, `#` or `&`, so the document URLs carry no query). -/
structure Url where
  path : String
  query : List (String × String)
  deriving DecidableEq, Repr

/-- One hex digit (upper case, as `encodeURIComponent` produces). -/
def hexDigit (n : Nat) : Char :=
  if n < 10 then Char.ofNat (48 + n) else Char.ofNat (55 + n)

/-- UTF-8 bytes of a code point, as natural numbers. -/
def utf8Bytes (n : Nat) : List Nat :=
  if n < 0x80 then [n]
  else if n < 0x800 then [0xc0 + n / 0x40, 0x80 + n % 0x40]
  else if n < 0x10000 then
    [0xe0 + n / 0x1000, 0x80 + n / 0x40 % 0x40, 0x80 + n % 0x40]
  else
    [0xf0 + n / 0x40000, 0x80 + n / 0x1000 % 0x40, 0x80 + n / 0x40 % 0x40,
      0x80 + n % 0x40]

/-- Characters `encodeURIComponent` leaves unescaped. -/
def uriUnreserved (c : Char) : Bool :=
  c.isAlphanum || c ∈ ['-', '_', '.', '!', '~', '*', '\'', '(', ')']

/-- Shallow embedding of JavaScript's `encodeURIComponent`. -/
def encodeURIComponent (s : String) : String :=
  String.join <| s.data.map fun c =>
    if uriUnreserved c then String.singleton c
    else String.join <| (utf8Bytes c.toNat).map fun b =>
      ⟨['%', hexDigit (b / 16), hexDigit (b % 16)]⟩

/-- Source `buildAuthUrl`: the identity-toolkit base plus the endpoint, with the
API key set as the (sole) query parameter. -/
def buildAuthUrl (config : FirebaseConfig) (endpoint : String) : Url :=
  { path := "https://www.googleapis.com/identitytoolkit/v3/relyingparty/" ++ endpoint
    query := [("key", config.apiKey)] }

/-- The Firestore documents base URL with the percent-encoded project id. -/
def firestoreBase (projectId : String) : String :=
  "https://firestore.googleapis.com/v1/projects/" ++ encodeURIComponent projectId
    ++ "/databases/(default)/documents/"

/-- Source `buildFirestoreUrl`: validates the collection name or document path and
appends it to the documents base; no query parameter is ever attached. -/
def buildFirestoreUrl (config : FirebaseConfig) (path : String)
    (isCollection : Bool) : Except ApiError Url :=
  if isCollection then
    (validateCollectionName path).map fun validPath =>
      { path := firestoreBase config.projectId ++ validPath, query := [] }
  else
    (validateDocumentPath path).map fun validPath =>
      { path := firestoreBase config.projectId ++ validPath, query := [] }

/-- Source `prepareHeaders`: always `Content-Type: application/json`; adds the
bearer header when the stored token is truthy, otherwise fails only if
`requireAuth` was requested. -/
def prepareHeaders (st : ClientState) (requireAuth : Bool) :
    Except ApiError (List (String × String)) :=
  if tokenTruthy st then
    .ok [("Content-Type", "application/json"),
      ("Authorization", "Bearer " ++ st.idToken.getD "")]
  else if requireAuth then
    .error (.validation
      "Authentication required. ID token must be provided for this operation.")
  else
    .ok [("Content-Type", "application/json")]

/-! ## Decimal strings for `integerValue`

The wire format carries integers as decimal strings.  The encoder emits the
JavaScript number-to-string form (plain decimal for the values the codec
classifies as integers), the decoder parses it back. -/

/-- The character for a decimal digit. -/
def digitChar (d : Nat) : Char := Char.ofNat (48 + d)

/-- Parse one decimal digit character. -/
def charDigit (c : Char) : Option Nat :=
  if 48 ≤ c.toNat ∧ c.toNat ≤ 57 then some (c.toNat - 48) else none

/-- Base-10 digits of `n`, least significant first, with explicit fuel so
that the definition is structural (hence kernel-executable). -/
def natDigitsAux : Nat → Nat → List Nat
  | 0, _ => []
  | fuel + 1, n => if n = 0 then [] else n % 10 :: natDigitsAux fuel (n / 10)

/-- Base-10 digits of `n`, least significant first (`n` itself is always
enough fuel). -/
def natDigits (n : Nat) : List Nat := natDigitsAux n n

/-- Decimal string of a natural number (most significant digit first). -/
def natToDecString (n : Nat) : String :=
  if n = 0 then "0"
  else ⟨((natDigits n).map digitChar).reverse⟩

/-- Parse a list of characters as decimal digits. -/
def charsToDigits : List Char → Option (List Nat)
  | [] => some []
  | c :: cs => do
    let d ← charDigit c
    let ds ← charsToDigits cs
    pure (d :: ds)

/-- Parse a non-empty all-digit character list as a natural number. -/
def decNatOfChars (l : List Char) : Option Nat :=
  match l with
  | [] => none
  | _ => (charsToDigits l).map fun ds => Nat.ofDigits 10 ds.reverse

/-- Decimal string of an integer (leading `-` when negative). -/
def intToDecString (i : Int) : String :=
  if i < 0 then "-" ++ natToDecString i.natAbs else natToDecString i.toNat

/-- Parse an optionally `-`-signed decimal string as an integer. -/
def decStringToInt (s : String) : Option Int :=
  if s.data.headD ' ' = '-' then
    (decNatOfChars s.data.tail).map fun n : Nat => -(n : Int)
  else (decNatOfChars s.data).map fun n : Nat => (n : Int)

/-! ## The value codec

Modelled from the spec: the bidirectional NativeValue ⇄ WireValue codec
(`convertToFirestoreValue` / `convertFromFirestoreValue` /
`convertToFirestoreDocument` in the tests) is absent from the checked-in
sources — only its test suite is present — so the definitions below follow
the spec's §3/§4.1 word for word.  A JavaScript number classified as an
integer (no fractional part, plain-decimal string form) is `intV`; a number
classified as a double is `doubleV`, its payload carried as the exact
rational value of the finite float, which both directions pass through
unchanged. -/

/-- A native structured value (spec §3 `NativeValue`). -/
inductive NativeValue where
  | nullV
  | undefinedV
  | boolV (b : Bool)
  | intV (n : Int)
  | doubleV (q : Rat)
  | strV (s : String)
  | dateV (iso : String)
  | arrV (vs : List NativeValue)
  | mapV (fs : List (String × NativeValue))
  | unsupportedV
  deriving Repr

/-- A wire value with exactly one recognized key (spec §3 `WireValue`). -/
inductive WireValue where
  | stringValue (s : String)
  | booleanValue (b : Bool)
  | integerValue (s : String)
  | doubleValue (q : Rat)
  | timestampValue (s : String)
  | nullValue
  | arrayValue (vs : List WireValue)
  | mapValue (fs : List (String × WireValue))
  deriving Repr

mutual

/-- Modelled from the spec: encode one native value (§4.1 Encode). -/
def encodeValue : NativeValue → WireValue
  | .nullV => .nullValue
  | .undefinedV => .nullValue
  | .boolV b => .booleanValue b
  | .intV n => .integerValue (intToDecString n)
  | .doubleV q => .doubleValue q
  | .strV s => .stringValue s
  | .dateV iso => .timestampValue iso
  | .arrV vs => .arrayValue (encodeList vs)
  | .mapV fs => .mapValue (encodeFields fs)
  | .unsupportedV => .stringValue "unsupported_type"

/-- Encode a list of native values. -/
def encodeList : List NativeValue → List WireValue
  | [] => []
  | v :: vs => encodeValue v :: encodeList vs

/-- Encode a field map. -/
def encodeFields : List (String × NativeValue) → List (String × WireValue)
  | [] => []
  | (k, v) :: fs => (k, encodeValue v) :: encodeFields fs

end

mutual

/-- Modelled from the spec: decode one wire value (§4.1 Decode);
`none` models a malformed `integerValue` payload. -/
def decodeValue : WireValue → Option NativeValue
  | .stringValue s => some (.strV s)
  | .booleanValue b => some (.boolV b)
  | .integerValue s => (decStringToInt s).map .intV
  | .doubleValue q => some (.doubleV q)
  | .timestampValue s => some (.dateV s)
  | .nullValue => some .nullV
  | .arrayValue vs => (decodeList vs).map .arrV
  | .mapValue fs => (decodeFields fs).map .mapV

/-- Decode a list of wire values. -/
def decodeList : List WireValue → Option (List NativeValue)
  | [] => some []
  | v :: vs => do
    let d ← decodeValue v
    let ds ← decodeList vs
    pure (d :: ds)

/-- Decode a field map. -/
def decodeFields : List (String × WireValue) → Option (List (String × NativeValue))
  | [] => some []
  | (k, v) :: fs => do
    let d ← decodeValue v
    let ds ← decodeFields fs
    pure ((k, d) :: ds)

end

mutual

/-- Does a value avoid the documented lossy encodings (`undefined`→null
collapse and the unsupported-type sentinel)? -/
def noLossy : NativeValue → Bool
  | .nullV => true
  | .undefinedV => false
  | .boolV _ => true
  | .intV _ => true
  | .doubleV _ => true
  | .strV _ => true
  | .dateV _ => true
  | .arrV vs => noLossyList vs
  | .mapV fs => noLossyFields fs
  | .unsupportedV => false

/-- Conjunction of `noLossy` over a list. -/
def noLossyList : List NativeValue → Bool
  | [] => true
  | v :: vs => noLossy v && noLossyList vs

/-- Conjunction of `noLossy` over field values. -/
def noLossyFields : List (String × NativeValue) → Bool
  | [] => true
  | (_, v) :: fs => noLossy v && noLossyFields fs

end

/-! ## The REST client operations

Each operation takes the client state and the transport's response as an
explicit argument and returns its outcome together with the list of
requests it sent (request bodies carry no information any claim concerns
and are omitted).  Methods of the source mutate at most `this.uid`; the
ones that assign nothing are embedded as state-preserving functions. -/

/-- A network request: method, URL, headers. -/
structure Request where
  method : String
  url : Url
  headers : List (String × String)
  deriving DecidableEq, Repr

/-- One account entry of the account-info endpoint's response
(`{ users: Array<{ localId: string }> }` in the source). -/
structure AccountUser where
  localId : String
  deriving DecidableEq, Repr

/-- Parsed body of the account-info response; `none` models an absent
(or falsy) `users` property. -/
structure VerifyBody where
  users : Option (List AccountUser)
  deriving DecidableEq, Repr

/-- An HTTP response for token verification. -/
structure VerifyResponse where
  ok : Bool
  status : Nat
  statusText : String
  body : VerifyBody
  deriving DecidableEq, Repr

/-- The structured record `logger.error` receives on a failed token
verification (`responseData` keeps the body value rather than its
serialization). -/
structure VerifyLogRecord where
  message : String
  status : Nat
  statusText : String
  responseData : VerifyBody
  action : String
  deriving DecidableEq, Repr

/-- Outcome of `verifyAndSetIdToken`: result (with the possibly updated
state), requests sent, log records emitted. -/
structure VerifyOutcome where
  result : Except ApiError ClientState
  requests : List Request
  logs : List VerifyLogRecord
  deriving Repr

/-- Source `verifyAndSetIdToken`: POSTs to the account-info
endpoint; on a non-OK status logs one error record and fails; on an absent
or empty user list fails with no log; otherwise stores the first user's
`localId` as the uid. -/
def verifyAndSetIdToken (st : ClientState) (resp : VerifyResponse) :
    VerifyOutcome :=
  let req : Request :=
    { method := "POST"
      url := buildAuthUrl st.config "getAccountInfo"
      headers := [("Content-Type", "application/json")] }
  if !resp.ok then
    { result := .error .tokenVerificationFailed
      requests := [req]
      logs := [{ message := "Firebase token verification failed"
                 status := resp.status
                 statusText := resp.statusText
                 responseData := resp.body
                 action := "verify_token" }] }
  else
    match resp.body.users with
    | none => { result := .error .noUserFound, requests := [req], logs := [] }
    | some [] => { result := .error .noUserFound, requests := [req], logs := [] }
    | some (u :: _) =>
      { result := .ok { st with uid := u.localId }, requests := [req], logs := [] }

/-- Source `validateIdToken`: a no-op when the stored token is
falsy, otherwise delegates to `verifyAndSetIdToken` with the stored
token. -/
def validateIdToken (st : ClientState) (resp : VerifyResponse) : VerifyOutcome :=
  if !tokenTruthy st then { result := .ok st, requests := [], logs := [] }
  else verifyAndSetIdToken st resp

/-- Source `getUid`: fails while the uid is still falsy. -/
def getUid (st : ClientState) : Except ApiError String :=
  if st.uid = "" then .error .tokenNotValidated else .ok st.uid

/-- A Firestore document on the wire (interface `FirestoreDocument`). -/
structure FirestoreDocument where
  name : String := ""
  fields : List (String × WireValue) := []
  createTime : Option String := none
  updateTime : Option String := none
  deriving Repr

/-- Parsed body of a collection listing (interface
`FirestoreCollectionResponse`); `documents := none` models a response
object with no `documents` key. -/
structure CollectionBody where
  documents : Option (List FirestoreDocument) := none
  nextPageToken : Option String := none
  deriving Repr

/-- An HTTP response for a collection read. -/
structure CollectionResponse where
  ok : Bool
  body : CollectionBody
  deriving Repr

/-- An HTTP response for a single-document operation. -/
structure DocumentResponse where
  ok : Bool
  body : FirestoreDocument
  deriving Repr

/-- The last `/`-separated segment of a resource name
(`name.split('/').pop()`). -/
def lastSegment (s : String) : String :=
  ((jsSplit s '/').getLast?).getD ""

/-- Modelled from the spec: decoding of a wire document to a plain native
value (absent from the checked-in sources, only its tests are present) —
the decoded field map plus an `id` taken from the resource name's last
segment. -/
def convertFromFirestoreDocument (d : FirestoreDocument) : Option NativeValue :=
  (decodeFields d.fields).map fun fs =>
    .mapV (fs ++ [("id", .strV (lastSegment d.name))])

/-- Decode every document of a listing (first failure propagates). -/
def convertDocs : List FirestoreDocument → Option (List NativeValue)
  | [] => some []
  | d :: ds => do
    let n ← convertFromFirestoreDocument d
    let ns ← convertDocs ds
    pure (n :: ns)

/-- Outcome of a CRUD operation. -/
structure CrudOutcome (α : Type) where
  result : Except ApiError α
  requests : List Request
  deriving Repr

/-- Source `getCollection`: prepares headers, validates the collection name while
building the URL (any validation failure is raised before the request is
sent), GETs, fails on a non-OK response.  The handling of the OK response
is modelled from the spec: the decoded document list is returned, the empty
list when the body has no `documents` key. -/
def getCollection (st : ClientState) (collectionName : String)
    (resp : CollectionResponse) : CrudOutcome (List NativeValue) :=
  match prepareHeaders st false with
  | .error e => { result := .error e, requests := [] }
  | .ok headers =>
    match buildFirestoreUrl st.config collectionName true with
    | .error e => { result := .error e, requests := [] }
    | .ok url =>
      let req : Request := { method := "GET", url := url, headers := headers }
      if !resp.ok then
        { result := .error (.operationFailed "get_collection"), requests := [req] }
      else
        match resp.body.documents with
        | none => { result := .ok [], requests := [req] }
        | some ds =>
          match convertDocs ds with
          | some ns => { result := .ok ns, requests := [req] }
          | none => { result := .error .decodeFailure, requests := [req] }

/-- Source `getDocument`: validates the document path while building the URL (any
validation failure is raised before the request is sent), GETs, fails on a
non-OK response; the decoding of the OK response body is modelled from the
spec. -/
def getDocument (st : ClientState) (documentPath : String)
    (resp : DocumentResponse) : CrudOutcome NativeValue :=
  match prepareHeaders st false with
  | .error e => { result := .error e, requests := [] }
  | .ok headers =>
    match buildFirestoreUrl st.config documentPath false with
    | .error e => { result := .error e, requests := [] }
    | .ok url =>
      let req : Request := { method := "GET", url := url, headers := headers }
      if !resp.ok then
        { result := .error (.operationFailed "get_document"), requests := [req] }
      else
        match convertFromFirestoreDocument resp.body with
        | some n => { result := .ok n, requests := [req] }
        | none => { result := .error .decodeFailure, requests := [req] }

/-- Source `updateDocument`: validates the document path while building the URL
(any validation failure is raised before the request is sent), PATCHes,
fails on a non-OK response; decoding of the OK body as in `getDocument`. -/
def updateDocument (st : ClientState) (documentPath : String)
    (_data : FirestoreDocument) (resp : DocumentResponse) :
    CrudOutcome NativeValue :=
  match prepareHeaders st false with
  | .error e => { result := .error e, requests := [] }
  | .ok headers =>
    match buildFirestoreUrl st.config documentPath false with
    | .error e => { result := .error e, requests := [] }
    | .ok url =>
      let req : Request := { method := "PATCH", url := url, headers := headers }
      if !resp.ok then
        { result := .error (.operationFailed "update_document"), requests := [req] }
      else
        match convertFromFirestoreDocument resp.body with
        | some n => { result := .ok n, requests := [req] }
        | none => { result := .error .decodeFailure, requests := [req] }

/-- Source `deleteDocument`: validates the document path while building the URL
(any validation failure is raised before the request is sent), DELETEs,
fails on a non-OK response, resolves to nothing on success. -/
def deleteDocument (st : ClientState) (documentPath : String)
    (resp : DocumentResponse) : CrudOutcome Unit :=
  match prepareHeaders st false with
  | .error e => { result := .error e, requests := [] }
  | .ok headers =>
    match buildFirestoreUrl st.config documentPath false with
    | .error e => { result := .error e, requests := [] }
    | .ok url =>
      let req : Request := { method := "DELETE", url := url, headers := headers }
      if !resp.ok then
        { result := .error (.operationFailed "delete_document"), requests := [req] }
      else
        { result := .ok (), requests := [req] }

/-- The exact set of trimmed collection names `validateCollectionName`
rejects (used to state its characterization). -/
def badCollectionName (t : String) : Bool :=
  t = "" || hasDotDot t || jsContainsChar t '/' || jsContainsChar t '?' ||
    jsContainsChar t '#' || jsContainsChar t '&' || hasCtl t

/-! ## Decimal round trip -/

theorem natDigitsAux_eq_digits (fuel : Nat) :
    ∀ n, n ≤ fuel → natDigitsAux fuel n = Nat.digits 10 n := by
  induction fuel with
  | zero =>
    intro n hn
    interval_cases n
    simp [natDigitsAux]
  | succ fuel ih =>
    intro n hn
    by_cases h : n = 0
    · simp [natDigitsAux, h]
    · rw [natDigitsAux, if_neg h,
        Nat.digits_def' (b := 10) (by norm_num) (Nat.pos_of_ne_zero h),
        ih (n / 10) (by omega)]

theorem natDigits_eq_digits (n : Nat) : natDigits n = Nat.digits 10 n :=
  natDigitsAux_eq_digits n n le_rfl

theorem charDigit_digitChar {d : Nat} (h : d < 10) :
    charDigit (digitChar d) = some d := by
  interval_cases d <;> rfl

theorem digitChar_ne_dash {d : Nat} (h : d < 10) : digitChar d ≠ '-' := by
  interval_cases d <;> decide

theorem charsToDigits_map_digitChar :
    ∀ l : List Nat, (∀ d ∈ l, d < 10) →
      charsToDigits (l.map digitChar) = some l := by
  intro l
  induction l with
  | nil => intro _; rfl
  | cons d ds ih =>
    intro h
    have hd : d < 10 := h d (by simp)
    simp only [List.map_cons, charsToDigits, charDigit_digitChar hd,
      ih fun x hx => h x (by simp [hx]), Option.bind_eq_bind,
      Option.some_bind]
    rfl

theorem natDigits_lt_ten (n : Nat) : ∀ d ∈ natDigits n, d < 10 := by
  rw [natDigits_eq_digits]
  intro d hd
  exact Nat.digits_lt_base (by norm_num) hd

theorem decNatOfChars_natToDecString (n : Nat) :
    decNatOfChars (natToDecString n).data = some n := by
  by_cases h : n = 0
  · subst h; rfl
  · have hdig := natDigits_lt_ten n
    have hne : natDigits n ≠ [] := by
      rw [natDigits_eq_digits]
      simpa [Nat.digits_ne_nil_iff_ne_zero] using h
    have hdata : (natToDecString n).data = ((natDigits n).map digitChar).reverse := by
      simp [natToDecString, h]
    rw [hdata]
    have hrev : ((natDigits n).map digitChar).reverse =
        ((natDigits n).reverse).map digitChar := by
      simp [List.map_reverse]
    rw [hrev]
    have hparse : charsToDigits (((natDigits n).reverse).map digitChar) =
        some (natDigits n).reverse :=
      charsToDigits_map_digitChar _ fun d hd => hdig d (List.mem_reverse.mp hd)
    have hnil : ((natDigits n).reverse).map digitChar ≠ [] := by
      simp [hne]
    cases hcase : ((natDigits n).reverse).map digitChar with
    | nil => exact absurd hcase hnil
    | cons c cs =>
      rw [show decNatOfChars (c :: cs) =
          (charsToDigits (c :: cs)).map (fun ds => Nat.ofDigits 10 ds.reverse)
        from rfl, ← hcase, hparse]
      simp [natDigits_eq_digits, Nat.ofDigits_digits]

theorem natToDecString_data_digits (n : Nat) :
    ∀ c ∈ (natToDecString n).data, ∃ d, d < 10 ∧ c = digitChar d := by
  by_cases h : n = 0
  · subst h
    intro c hc
    have hz : (natToDecString 0).data = ['0'] := rfl
    rw [hz] at hc
    have hc0 : c = '0' := by simpa using hc
    exact ⟨0, by norm_num, by rw [hc0]; rfl⟩
  · intro c hc
    have hdata : (natToDecString n).data = ((natDigits n).map digitChar).reverse := by
      simp [natToDecString, h]
    rw [hdata, List.mem_reverse, List.mem_map] at hc
    obtain ⟨d, hd, rfl⟩ := hc
    exact ⟨d, natDigits_lt_ten n d hd, rfl⟩

theorem natToDecString_data_ne_nil (n : Nat) : (natToDecString n).data ≠ [] := by
  by_cases h : n = 0
  · subst h; decide
  · have hne : natDigits n ≠ [] := by
      rw [natDigits_eq_digits]
      simpa [Nat.digits_ne_nil_iff_ne_zero] using h
    simp [natToDecString, h, hne]

theorem natToDecString_headD_ne_dash (n : Nat) :
    (natToDecString n).data.headD ' ' ≠ '-' := by
  cases hc : (natToDecString n).data with
  | nil => decide
  | cons c cs =>
    have hmem : c ∈ (natToDecString n).data := by rw [hc]; simp
    obtain ⟨d, hd, rfl⟩ := natToDecString_data_digits _ _ hmem
    simpa using digitChar_ne_dash hd

theorem decStringToInt_intToDecString (i : Int) :
    decStringToInt (intToDecString i) = some i := by
  by_cases h : i < 0
  · have hdata : (intToDecString i).data = '-' :: (natToDecString i.natAbs).data := by
      simp [intToDecString, h, String.data_append]
    have hnat := decNatOfChars_natToDecString i.natAbs
    simp only [decStringToInt, hdata, List.headD_cons, List.tail_cons,
      if_pos, hnat]
    simp only [Option.map_some', Option.some.injEq]
    omega
  · have hdata : (intToDecString i).data = (natToDecString i.toNat).data := by
      simp [intToDecString, h]
    have hnat := decNatOfChars_natToDecString i.toNat
    rw [decStringToInt, hdata,
      if_neg (natToDecString_headD_ne_dash i.toNat), hnat]
    simp only [Option.map_some', Option.some.injEq]
    omega

/-! ## Codec round trip -/

theorem noLossy_of_mem_list {vs : List NativeValue} {v : NativeValue}
    (h : noLossyList vs = true) (hv : v ∈ vs) : noLossy v = true := by
  induction vs with
  | nil => cases hv
  | cons w ws ih =>
    rw [noLossyList] at h
    rcases List.mem_cons.mp hv with rfl | hmem
    · exact ((Bool.and_eq_true _ _).mp h).1
    · exact ih ((Bool.and_eq_true _ _).mp h).2 hmem

theorem noLossy_of_mem_fields {fs : List (String × NativeValue)}
    {p : String × NativeValue} (h : noLossyFields fs = true) (hp : p ∈ fs) :
    noLossy p.2 = true := by
  induction fs with
  | nil => cases hp
  | cons q qs ih =>
    obtain ⟨k, v⟩ := q
    rw [noLossyFields] at h
    rcases List.mem_cons.mp hp with rfl | hmem
    · exact ((Bool.and_eq_true _ _).mp h).1
    · exact ih ((Bool.and_eq_true _ _).mp h).2 hmem

theorem decodeList_encodeList_of (vs : List NativeValue)
    (h : ∀ v ∈ vs, decodeValue (encodeValue v) = some v) :
    decodeList (encodeList vs) = some vs := by
  induction vs with
  | nil => rfl
  | cons v ws ih =>
    rw [encodeList, decodeList, h v (by simp),
      ih fun w hw => h w (by simp [hw])]
    rfl

theorem decodeFields_encodeFields_of (fs : List (String × NativeValue))
    (h : ∀ p ∈ fs, decodeValue (encodeValue p.2) = some p.2) :
    decodeFields (encodeFields fs) = some fs := by
  induction fs with
  | nil => rfl
  | cons p ps ih =>
    obtain ⟨k, v⟩ := p
    rw [encodeFields, decodeFields, h ⟨k, v⟩ (by simp),
      ih fun q hq => h q (by simp [hq])]
    rfl

theorem decode_encode_aux :
    ∀ n : Nat, ∀ v : NativeValue, sizeOf v = n → noLossy v = true →
      decodeValue (encodeValue v) = some v := by
  intro n
  induction n using Nat.strong_induction_on with
  | _ n ih =>
    intro v hsz hl
    cases v with
    | nullV => simp [encodeValue, decodeValue]
    | undefinedV => rw [noLossy] at hl; cases hl
    | boolV b => simp [encodeValue, decodeValue]
    | intV k =>
      simp [encodeValue, decodeValue, decStringToInt_intToDecString]
    | doubleV q => simp [encodeValue, decodeValue]
    | strV s => simp [encodeValue, decodeValue]
    | dateV iso => simp [encodeValue, decodeValue]
    | unsupportedV => rw [noLossy] at hl; cases hl
    | arrV vs =>
      rw [noLossy] at hl
      have hpt : ∀ w ∈ vs, decodeValue (encodeValue w) = some w := by
        intro w hw
        have h1 : sizeOf w < sizeOf vs := List.sizeOf_lt_of_mem hw
        have h2 : sizeOf (NativeValue.arrV vs) = 1 + sizeOf vs := by simp
        have hwsz : sizeOf w < n := by omega
        exact ih (sizeOf w) hwsz w rfl (noLossy_of_mem_list hl hw)
      simp only [encodeValue, decodeValue, decodeList_encodeList_of vs hpt]
      rfl
    | mapV fs =>
      rw [noLossy] at hl
      have hpt : ∀ p ∈ fs, decodeValue (encodeValue p.2) = some p.2 := by
        intro p hp
        obtain ⟨k, w⟩ := p
        have h1 : sizeOf ((k, w) : String × NativeValue) < sizeOf fs :=
          List.sizeOf_lt_of_mem hp
        have h2 : sizeOf (NativeValue.mapV fs) = 1 + sizeOf fs := by simp
        have h3 : sizeOf ((k, w) : String × NativeValue) = 1 + sizeOf k + sizeOf w := by
          simp
        have hpsz : sizeOf w < n := by omega
        exact ih (sizeOf w) hpsz w rfl (noLossy_of_mem_fields hl hp)
      simp only [encodeValue, decodeValue, decodeFields_encodeFields_of fs hpt]
      rfl

/-! ## Claim theorems -/

/-- C1: for every representable NativeValue `v` that does not involve the
documented lossy cases (undefined/null collapse, unsupported-type
sentinel, large-magnitude number edge case — the latter excluded by the
`intV` carrier itself), decoding the encoding of `v` yields `v`. -/
theorem c1_decode_encode_roundTrip (v : NativeValue) (h : noLossy v = true) :
    decodeValue (encodeValue v) = some v :=
  decode_encode_aux (sizeOf v) v rfl h

/-- C1 witness: the spec §8 example value round-trips. -/
theorem c1_decode_encode_roundTrip_witness :
    noLossy (NativeValue.mapV [("a", .intV 1),
      ("b", .arrV [.boolV true, .nullV]),
      ("c", .mapV [("d", .strV "x")])]) = true ∧
    decodeValue (encodeValue (NativeValue.mapV [("a", .intV 1),
      ("b", .arrV [.boolV true, .nullV]),
      ("c", .mapV [("d", .strV "x")])])) =
      some (NativeValue.mapV [("a", .intV 1),
        ("b", .arrV [.boolV true, .nullV]),
        ("c", .mapV [("d", .strV "x")])]) :=
  ⟨by simp [noLossy, noLossyList, noLossyFields],
    c1_decode_encode_roundTrip _ (by simp [noLossy, noLossyList, noLossyFields])⟩

/-- C2 counterexample: a second successful `verifyAndSetIdToken` call with a
token resolving to a different user overwrites the resolved uid, so the
value returned by `getUid` changes after the first success. -/
theorem c2_counterexample :
    (verifyAndSetIdToken ⟨⟨"k", "p"⟩, some "tok", ""⟩
        ⟨true, 200, "OK", ⟨some [⟨"u1"⟩]⟩⟩).result =
      .ok ⟨⟨"k", "p"⟩, some "tok", "u1"⟩ ∧
    getUid ⟨⟨"k", "p"⟩, some "tok", "u1"⟩ = .ok "u1" ∧
    (verifyAndSetIdToken ⟨⟨"k", "p"⟩, some "tok", "u1"⟩
        ⟨true, 200, "OK", ⟨some [⟨"u2"⟩]⟩⟩).result =
      .ok ⟨⟨"k", "p"⟩, some "tok", "u2"⟩ ∧
    getUid ⟨⟨"k", "p"⟩, some "tok", "u2"⟩ = .ok "u2" ∧
    ("u2" : String) ≠ "u1" :=
  ⟨rfl, rfl, rfl, rfl, by decide⟩

/-- C2 amended: the resolved uid starts unset and is changed only by
`verifyAndSetIdToken`; each successful call stores the response's first
user id, overwriting any previously resolved value, so a second successful
call with a token resolving to a different user changes `getUid`'s
value. -/
theorem c2_amended_uid_set_and_overwritten (cfg : FirebaseConfig)
    (tok : Option String) (st0 st : ClientState) (resp : VerifyResponse)
    (u : AccountUser) (us : List AccountUser)
    (hmk : mkClient cfg tok = .ok st0) (hok : resp.ok = true)
    (hus : resp.body.users = some (u :: us)) :
    st0.uid = "" ∧
    (verifyAndSetIdToken st resp).result = .ok { st with uid := u.localId } ∧
    (u.localId ≠ "" → getUid { st with uid := u.localId } = .ok u.localId) := by
  refine ⟨?_, ?_, ?_⟩
  · unfold mkClient at hmk
    split at hmk
    · cases hmk
    · cases hmk
      rfl
  · simp [verifyAndSetIdToken, hok, hus]
  · intro hne
    simp [getUid, hne]

/-- C2 amended witness: concrete instance of the amended claim. -/
theorem c2_amended_uid_set_and_overwritten_witness :
    (mkClient ⟨"k", "p"⟩ (some "tok") = .ok ⟨⟨"k", "p"⟩, some "tok", ""⟩) ∧
    ((⟨⟨"k", "p"⟩, some "tok", ""⟩ : ClientState).uid = "" ∧
      (verifyAndSetIdToken ⟨⟨"k", "p"⟩, some "tok", "u1"⟩
          ⟨true, 200, "OK", ⟨some [⟨"u2"⟩]⟩⟩).result =
        .ok ⟨⟨"k", "p"⟩, some "tok", "u2"⟩ ∧
      (("u2" : String) ≠ "" →
        getUid ⟨⟨"k", "p"⟩, some "tok", "u2"⟩ = .ok "u2")) :=
  ⟨rfl, c2_amended_uid_set_and_overwritten ⟨"k", "p"⟩ (some "tok") _
    ⟨⟨"k", "p"⟩, some "tok", "u1"⟩ ⟨true, 200, "OK", ⟨some [⟨"u2"⟩]⟩⟩
    ⟨"u2"⟩ [] rfl rfl rfl⟩

/-- C7: `verifyAndSetIdToken` logs exactly one error record (with fields
status, statusText, responseData, action `verify_token`) and fails on a
non-OK response; fails with the no-user error and logs nothing on an OK
response with an absent or empty user list; otherwise resolves and stores
the first user's id as the client's uid. -/
theorem c7_verify_behaviour (st : ClientState) (resp : VerifyResponse) :
    (resp.ok = false →
      (verifyAndSetIdToken st resp).result = .error .tokenVerificationFailed ∧
      (verifyAndSetIdToken st resp).logs =
        [⟨"Firebase token verification failed", resp.status, resp.statusText,
          resp.body, "verify_token"⟩]) ∧
    (resp.ok = true → resp.body.users = none ∨ resp.body.users = some [] →
      (verifyAndSetIdToken st resp).result = .error .noUserFound ∧
      (verifyAndSetIdToken st resp).logs = []) ∧
    (∀ u us, resp.ok = true → resp.body.users = some (u :: us) →
      (verifyAndSetIdToken st resp).result = .ok { st with uid := u.localId } ∧
      (verifyAndSetIdToken st resp).logs = []) := by
  refine ⟨?_, ?_, ?_⟩
  · intro hok
    simp [verifyAndSetIdToken, hok]
  · intro hok hus
    rcases hus with hus | hus <;> simp [verifyAndSetIdToken, hok, hus]
  · intro u us hok hus
    simp [verifyAndSetIdToken, hok, hus]

/-- C7 witness: the three branches at concrete responses. -/
theorem c7_verify_behaviour_witness :
    ((false : Bool) = false →
      (verifyAndSetIdToken ⟨⟨"k", "p"⟩, some "tok", ""⟩
          ⟨false, 401, "Unauthorized", ⟨none⟩⟩).result =
        .error .tokenVerificationFailed ∧
      (verifyAndSetIdToken ⟨⟨"k", "p"⟩, some "tok", ""⟩
          ⟨false, 401, "Unauthorized", ⟨none⟩⟩).logs =
        [⟨"Firebase token verification failed", 401, "Unauthorized", ⟨none⟩,
          "verify_token"⟩]) ∧
    ((verifyAndSetIdToken ⟨⟨"k", "p"⟩, some "tok", ""⟩
        ⟨true, 200, "OK", ⟨some []⟩⟩).result = .error .noUserFound ∧
      (verifyAndSetIdToken ⟨⟨"k", "p"⟩, some "tok", ""⟩
        ⟨true, 200, "OK", ⟨some []⟩⟩).logs = []) ∧
    ((verifyAndSetIdToken ⟨⟨"k", "p"⟩, some "tok", ""⟩
        ⟨true, 200, "OK", ⟨some [⟨"u1"⟩]⟩⟩).result =
      .ok ⟨⟨"k", "p"⟩, some "tok", "u1"⟩ ∧
      (verifyAndSetIdToken ⟨⟨"k", "p"⟩, some "tok", ""⟩
        ⟨true, 200, "OK", ⟨some [⟨"u1"⟩]⟩⟩).logs = []) :=
  ⟨fun _ => (c7_verify_behaviour ⟨⟨"k", "p"⟩, some "tok", ""⟩
      ⟨false, 401, "Unauthorized", ⟨none⟩⟩).1 rfl,
    (c7_verify_behaviour ⟨⟨"k", "p"⟩, some "tok", ""⟩
      ⟨true, 200, "OK", ⟨some []⟩⟩).2.1 rfl (Or.inr rfl),
    (c7_verify_behaviour ⟨⟨"k", "p"⟩, some "tok", ""⟩
      ⟨true, 200, "OK", ⟨some [⟨"u1"⟩]⟩⟩).2.2 ⟨"u1"⟩ [] rfl rfl⟩

/-- C10: on an OK response whose first user has an empty `localId`, the
verification call resolves successfully, yet `getUid` on the resulting
state still fails with the token-not-validated error, indistinguishable
from a never-validated client. -/
theorem c10_empty_localId_resolves_but_getUid_fails (st : ClientState)
    (resp : VerifyResponse) (us : List AccountUser) (hok : resp.ok = true)
    (hus : resp.body.users = some (⟨""⟩ :: us)) :
    (verifyAndSetIdToken st resp).result = .ok { st with uid := "" } ∧
    getUid { st with uid := "" } = .error .tokenNotValidated := by
  constructor
  · simp [verifyAndSetIdToken, hok, hus]
  · rfl

/-- C10 witness: concrete empty-localId verification. -/
theorem c10_empty_localId_witness :
    (verifyAndSetIdToken ⟨⟨"k", "p"⟩, some "tok", ""⟩
        ⟨true, 200, "OK", ⟨some [⟨""⟩]⟩⟩).result =
      .ok ⟨⟨"k", "p"⟩, some "tok", ""⟩ ∧
    getUid ⟨⟨"k", "p"⟩, some "tok", ""⟩ = .error .tokenNotValidated :=
  c10_empty_localId_resolves_but_getUid_fails ⟨⟨"k", "p"⟩, some "tok", ""⟩
    ⟨true, 200, "OK", ⟨some [⟨""⟩]⟩⟩ [] rfl rfl

/-- C9: a client constructed without a token is in public mode:
`validateIdToken` resolves trivially without sending any request (and
leaves the state unchanged, over any sequence of calls), and `getUid`
fails with the token-not-validated error. -/
theorem c9_public_mode_never_verifies (cfg : FirebaseConfig)
    (st : ClientState) (hmk : mkClient cfg none = .ok st) :
    (∀ resp, validateIdToken st resp =
      { result := .ok st, requests := [], logs := [] }) ∧
    getUid st = .error .tokenNotValidated ∧
    (∀ resps : List VerifyResponse,
      resps.foldl (fun s r =>
        match (validateIdToken s r).result with
        | .ok s' => s'
        | .error _ => s) st = st) := by
  have hst : st = { config := cfg, idToken := none, uid := "" } := by
    unfold mkClient at hmk
    split at hmk
    · cases hmk
    · cases hmk
      rfl
  subst hst
  refine ⟨?_, rfl, ?_⟩
  · intro resp
    rfl
  · intro resps
    induction resps with
    | nil => rfl
    | cons r rs ih => simpa [validateIdToken, tokenTruthy] using ih

/-- C9 witness: concrete public-mode client. -/
theorem c9_public_mode_witness :
    (mkClient ⟨"k", "p"⟩ none = .ok ⟨⟨"k", "p"⟩, none, ""⟩) ∧
    validateIdToken ⟨⟨"k", "p"⟩, none, ""⟩ ⟨true, 200, "OK", ⟨none⟩⟩ =
      { result := .ok ⟨⟨"k", "p"⟩, none, ""⟩, requests := [], logs := [] } ∧
    getUid ⟨⟨"k", "p"⟩, none, ""⟩ = .error .tokenNotValidated :=
  ⟨rfl,
    (c9_public_mode_never_verifies ⟨"k", "p"⟩ ⟨⟨"k", "p"⟩, none, ""⟩ rfl).1
      ⟨true, 200, "OK", ⟨none⟩⟩,
    (c9_public_mode_never_verifies ⟨"k", "p"⟩ ⟨⟨"k", "p"⟩, none, ""⟩ rfl).2.1⟩

/-! ## Helper lemmas for the remaining claims -/

theorem prepareHeaders_false_eq (st : ClientState) :
    prepareHeaders st false =
      .ok (if tokenTruthy st then
        [("Content-Type", "application/json"),
          ("Authorization", "Bearer " ++ st.idToken.getD "")]
      else [("Content-Type", "application/json")]) := by
  cases h : tokenTruthy st <;> simp [prepareHeaders, h]

theorem buildFirestoreUrl_docPath_error {cfg : FirebaseConfig} {p : String}
    {e : ApiError} (he : validateDocumentPath p = .error e) :
    buildFirestoreUrl cfg p false = .error e := by
  simp [buildFirestoreUrl, he, Except.map]

theorem splitCharList_ne_nil (c : Char) (l : List Char) :
    splitCharList c l ≠ [] := by
  induction l with
  | nil => simp [splitCharList]
  | cons x xs ih =>
    simp only [splitCharList]
    split
    · exact List.cons_ne_nil _ _
    · split
      · exact List.cons_ne_nil _ _
      · exact List.cons_ne_nil _ _

theorem jsSplit_length_pos (s : String) (c : Char) :
    0 < (jsSplit s c).length := by
  rw [jsSplit, List.length_map]
  exact List.length_pos.mpr (splitCharList_ne_nil c s.data)

theorem validateDocumentPath_ok_shape {p t : String}
    (h : validateDocumentPath p = .ok t) :
    2 ≤ (jsSplit (jsTrim p) '/').length ∧
    (jsSplit (jsTrim p) '/').length % 2 = 0 ∧
    ((jsSplit (jsTrim p) '/').any fun part => jsTrim part = "") = false := by
  unfold validateDocumentPath at h
  split_ifs at h with h1 h2 h3 h4 h5 h6 h7
  cases h
  push_neg at h6
  refine ⟨by omega, by omega, ?_⟩
  simpa using h7

/-- C3: with a valid collection name and an OK response, `getCollection`
returns the decoded document list; in particular a response body with no
`documents` key resolves to the empty list rather than an error. -/
theorem c3_getCollection_decoded_list (st : ClientState) (name t : String)
    (resp : CollectionResponse) (hval : validateCollectionName name = .ok t)
    (hok : resp.ok = true) :
    (resp.body.documents = none → (getCollection st name resp).result = .ok []) ∧
    (∀ ds ns, resp.body.documents = some ds →
      convertDocs ds = some ns →
      (getCollection st name resp).result = .ok ns) := by
  have hurl : buildFirestoreUrl st.config name true =
      .ok { path := firestoreBase st.config.projectId ++ t, query := [] } := by
    simp [buildFirestoreUrl, hval, Except.map]
  constructor
  · intro hdocs
    simp [getCollection, prepareHeaders_false_eq, hurl, hok, hdocs]
  · intro ds ns hdocs hmap
    simp [getCollection, prepareHeaders_false_eq, hurl, hok, hdocs, hmap]

/-- C3 witness: `getCollection` of `"books"` on an OK `{}` body resolves
to the empty list. -/
theorem c3_getCollection_witness :
    validateCollectionName "books" = .ok "books" ∧
    (getCollection ⟨⟨"k", "p"⟩, none, ""⟩ "books"
      ⟨true, ⟨none, none⟩⟩).result = .ok [] :=
  ⟨rfl, (c3_getCollection_decoded_list ⟨⟨"k", "p"⟩, none, ""⟩ "books" "books"
    ⟨true, ⟨none, none⟩⟩ rfl rfl).1 rfl⟩

/-- C4: `validateDocumentPath` accepts only paths whose trimmed form splits
on `/` into an even number of at least two non-empty segments; a
single-segment path, an odd segment count or any empty segment fails; and
any validation failure means `getDocument`, `updateDocument` and
`deleteDocument` send no network request. -/
theorem c4_path_shape_and_no_network (p : String) :
    (∀ t, validateDocumentPath p = .ok t →
      2 ≤ (jsSplit (jsTrim p) '/').length ∧
      (jsSplit (jsTrim p) '/').length % 2 = 0 ∧
      ∀ s ∈ jsSplit (jsTrim p) '/', s ≠ "") ∧
    ((jsSplit (jsTrim p) '/').length = 1 ∨
      (jsSplit (jsTrim p) '/').length % 2 = 1 ∨
      (∃ s ∈ jsSplit (jsTrim p) '/', s = "") →
      ∃ e, validateDocumentPath p = .error e) ∧
    (∀ e, validateDocumentPath p = .error e →
      (∀ st resp, (getDocument st p resp).requests = []) ∧
      (∀ st d resp, (updateDocument st p d resp).requests = []) ∧
      (∀ st resp, (deleteDocument st p resp).requests = [])) := by
  have hshape : ∀ t, validateDocumentPath p = .ok t →
      2 ≤ (jsSplit (jsTrim p) '/').length ∧
      (jsSplit (jsTrim p) '/').length % 2 = 0 ∧
      ∀ s ∈ jsSplit (jsTrim p) '/', s ≠ "" := by
    intro t h
    obtain ⟨hlen, hmod, hany⟩ := validateDocumentPath_ok_shape h
    refine ⟨hlen, hmod, ?_⟩
    have hblank : ∀ x ∈ jsSplit (jsTrim p) '/', ¬jsTrim x = "" := by
      simpa using hany
    intro s hs hempty
    subst hempty
    exact hblank "" hs rfl
  refine ⟨hshape, ?_, ?_⟩
  · intro hbad
    cases hv : validateDocumentPath p with
    | error e => exact ⟨e, rfl⟩
    | ok t =>
      obtain ⟨hlen, hmod, hne⟩ := hshape t hv
      rcases hbad with hb | hb | ⟨s, hs, rfl⟩
      · exact absurd hlen (by omega)
      · exact absurd hmod (by omega)
      · exact (hne _ hs rfl).elim
  · intro e he
    have hurl : ∀ cfg : FirebaseConfig, buildFirestoreUrl cfg p false = .error e :=
      fun cfg => buildFirestoreUrl_docPath_error he
    refine ⟨?_, ?_, ?_⟩
    · intro st resp
      simp [getDocument, prepareHeaders_false_eq, hurl]
    · intro st d resp
      simp [updateDocument, prepareHeaders_false_eq, hurl]
    · intro st resp
      simp [deleteDocument, prepareHeaders_false_eq, hurl]

/-- C4 witness: `"books"` (single segment) fails validation and triggers no
request; `"books/book123"` passes the shape requirements. -/
theorem c4_path_shape_witness :
    (∃ e, validateDocumentPath "books" = .error e) ∧
    (∀ st resp, (getDocument st "books" resp).requests = []) ∧
    (2 ≤ (jsSplit (jsTrim "books/book123") '/').length ∧
      (jsSplit (jsTrim "books/book123") '/').length % 2 = 0 ∧
      ∀ s ∈ jsSplit (jsTrim "books/book123") '/', s ≠ "") := by
  obtain ⟨e, he⟩ := (c4_path_shape_and_no_network "books").2.1 (Or.inl (by decide))
  exact ⟨⟨e, he⟩,
    ((c4_path_shape_and_no_network "books").2.2 e he).1,
    (c4_path_shape_and_no_network "books/book123").1 "books/book123" rfl⟩

/-- C5 counterexample: `"\tbooks"` contains an ASCII control character
(0x09), yet `validateCollectionName` accepts it — and returns the trimmed
name `"books"`, not the input unchanged. -/
theorem c5_counterexample :
    hasCtl "\tbooks" = true ∧
    validateCollectionName "\tbooks" = .ok "books" ∧
    ("books" : String) ≠ "\tbooks" :=
  ⟨rfl, rfl, by decide⟩

/-- C5 amended: `validateCollectionName` fails exactly when the trimmed
input is empty or the trimmed input contains `..`, `/`, `?`, `#`, `&` or an
ASCII control character; otherwise it succeeds and returns the trimmed
input (equal to the input, e.g. `"books"`, whenever the input carries no
leading or trailing whitespace). -/
theorem c5_amended_validateCollectionName_characterization (s : String) :
    (badCollectionName (jsTrim s) = true →
      ∃ e, validateCollectionName s = .error e) ∧
    (badCollectionName (jsTrim s) = false →
      validateCollectionName s = .ok (jsTrim s)) := by
  constructor
  · intro hbad
    cases hv : validateCollectionName s with
    | error e => exact ⟨e, rfl⟩
    | ok t =>
      exfalso
      unfold validateCollectionName at hv
      split_ifs at hv with h1 h2 h3 h4 h5
      cases hv
      simp only [Bool.or_eq_true, not_or, Bool.not_eq_true] at h3 h4
      obtain ⟨h3a, h3b⟩ := h3
      obtain ⟨⟨h4a, h4b⟩, h4c⟩ := h4
      have h5' : hasCtl (jsTrim s) = false := by simpa using h5
      simp [badCollectionName, h2, h3a, h3b, h4a, h4b, h4c, h5'] at hbad
  · intro hgood
    have hcomp := hgood
    simp only [badCollectionName, Bool.or_eq_false_iff,
      decide_eq_false_iff_not] at hcomp
    obtain ⟨⟨⟨⟨⟨⟨hne, hdd⟩, hsl⟩, hq⟩, hh⟩, ha⟩, hctl⟩ := hcomp
    have hs0 : ¬s = "" := by
      intro h0
      subst h0
      exact hne rfl
    simp [validateCollectionName, hs0, hne, hdd, hsl, hq, hh, ha, hctl]

/-- C5 amended witness: `"books"` is not rejected and passes through. -/
theorem c5_amended_witness :
    badCollectionName (jsTrim "books") = false ∧
    validateCollectionName "books" = .ok (jsTrim "books") :=
  ⟨by decide,
    (c5_amended_validateCollectionName_characterization "books").2 (by decide)⟩

/-- C6: the API key is a query parameter of auth-endpoint URLs only —
document-endpoint URLs carry no query parameters at all — and the bearer
header is attached exactly when the client holds a (truthy) token, the
JSON content type always. -/
theorem c6_key_placement_and_headers (cfg : FirebaseConfig)
    (endpoint : String) (st : ClientState) (path : String)
    (isCollection : Bool) :
    (buildAuthUrl cfg endpoint).query = [("key", cfg.apiKey)] ∧
    (∀ u, buildFirestoreUrl cfg path isCollection = .ok u → u.query = []) ∧
    (∀ hs, prepareHeaders st false = .ok hs →
      ("Content-Type", "application/json") ∈ hs ∧
      (tokenTruthy st = true →
        ("Authorization", "Bearer " ++ st.idToken.getD "") ∈ hs) ∧
      (tokenTruthy st = false → ∀ v, ("Authorization", v) ∉ hs)) := by
  refine ⟨rfl, ?_, ?_⟩
  · intro u hu
    cases isCollection <;>
      [cases hval : validateDocumentPath path;
        cases hval : validateCollectionName path] <;>
      simp [buildFirestoreUrl, hval, Except.map] at hu <;>
      simp [← hu]
  · intro hs hhs
    cases htok : tokenTruthy st <;>
      rw [prepareHeaders_false_eq, htok] at hhs <;>
      cases hhs <;> simp [htok]

/-- C6 witness: concrete URLs and headers with and without a token. -/
theorem c6_key_placement_witness :
    (buildAuthUrl ⟨"k", "p"⟩ "getAccountInfo").query = [("key", "k")] ∧
    (∀ u, buildFirestoreUrl ⟨"k", "p"⟩ "books" true = .ok u → u.query = []) ∧
    (("Content-Type", "application/json") ∈
        [(("Content-Type" : String), ("application/json" : String)),
          ("Authorization", "Bearer " ++ (some "tok" : Option String).getD "")] ∧
      (tokenTruthy ⟨⟨"k", "p"⟩, some "tok", ""⟩ = true →
        ("Authorization", "Bearer " ++ (some "tok" : Option String).getD "") ∈
          [(("Content-Type" : String), ("application/json" : String)),
            ("Authorization", "Bearer " ++ (some "tok" : Option String).getD "")]) ∧
      (tokenTruthy ⟨⟨"k", "p"⟩, some "tok", ""⟩ = false →
        ∀ v, ("Authorization", v) ∉
          [(("Content-Type" : String), ("application/json" : String)),
            ("Authorization", "Bearer " ++ (some "tok" : Option String).getD "")])) :=
  ⟨(c6_key_placement_and_headers ⟨"k", "p"⟩ "getAccountInfo"
      ⟨⟨"k", "p"⟩, some "tok", ""⟩ "books" true).1,
    (c6_key_placement_and_headers ⟨"k", "p"⟩ "getAccountInfo"
      ⟨⟨"k", "p"⟩, some "tok", ""⟩ "books" true).2.1,
    (c6_key_placement_and_headers ⟨"k", "p"⟩ "getAccountInfo"
      ⟨⟨"k", "p"⟩, some "tok", ""⟩ "books" true).2.2 _
      (by rw [prepareHeaders_false_eq]; rfl)⟩

end FirebaseRestApi
